import Mathlib

/-!
Shallow embedding of the VerifiedPixel ingest-verification tasks, translated
from `src/server/vpp/verifiedpixel/ingest_task.py` and
`src/server/vpp/verifiedpixel/vpp_mock.py`.

External collaborators (GridFS, the resource services, the celery substrate)
are modelled at their interface boundary: the blob store is a function from a
media id to bytes, store writes become explicit effect values, and each celery
task body becomes a Lean function from its inputs and the outcome of its
provider call to the effects it performs.
-/

namespace VerifiedPixel

/-! ## Items and the blob store -/

/-- One entry of an item's renditions mapping: a stored-bytes reference
(`media`) plus a public URL (`href`). -/
structure Rendition where
  media : String
  href : String
deriving Repr, DecidableEq

/-- An ingested picture item as the sweep sees it: identifier, slugline, and
an optional renditions mapping (absent when the item document has no
`renditions` key).  Items matched by the sweep have no verification field. -/
structure IngestItem where
  id : String
  slugline : String
  renditions : Option (List (String × Rendition))
deriving Repr, DecidableEq

/-- The per-item failure raised when no original rendition is registered. -/
inductive IngestError where
  | imageNotFound
deriving Repr, DecidableEq

/-- `get_original_image(item)`: if the item has a renditions mapping, scan it
for the key `"original"` and return that rendition's href together with the
bytes fetched from GridFS (modelled by `fs`); otherwise raise
`ImageNotFoundException`. -/
def get_original_image (fs : String → List Nat) (item : IngestItem) :
    Except IngestError (String × List Nat) :=
  match item.renditions with
  | some rs =>
    match rs.find? (fun kv => kv.1 == "original") with
    | some kv => .ok (kv.2.href, fs kv.2.media)
    | none => .error .imageNotFound
  | none => .error .imageNotFound

/-! ## Finalizer -/

/-- The two store operations performed by `finalize_verification`. -/
inductive FinalizeOp where
  | fetchToDesk (itemId : String) (deskId : String)
  | deleteFromIngest (itemId : String)
deriving Repr, DecidableEq

/-- A store operation issued through `handle_elastic_write_problems_wrapper`. -/
structure WrappedCall where
  op : FinalizeOp
deriving Repr, DecidableEq

/-- `handle_elastic_write_problems_wrapper`: the idempotent store-writer
wrapper; in this embedding it tags the operation as having gone through the
wrapper. -/
def handle_elastic_write_problems_wrapper (op : FinalizeOp) : WrappedCall :=
  ⟨op⟩

/-- `finalize_verification(item_id, desk_id)`: fetch the item into the
destination desk, then delete it from the ingest store, each call going
through the wrapper, in that order. -/
def finalize_verification (item_id : String) (desk_id : String) :
    List WrappedCall :=
  [handle_elastic_write_problems_wrapper (.fetchToDesk item_id desk_id),
   handle_elastic_write_problems_wrapper (.deleteFromIngest item_id)]

/-! ## Mock fixture generators (vpp_mock.py) -/

/-- One argument to `prepare_sequence_from_args`: an optional `status`
(defaulting to 200 in the source; here stored explicitly), an optional
`response` already rendered to a string (`json.dumps` of a dict is an external
step), and the content of the `response_file` used when `response` is absent
or falsy. -/
structure FixtureArg where
  status : Nat
  response : Option String
  fileContent : String
deriving Repr, DecidableEq

/-- The body of `prepare_sequence_from_args` for one argument: pick the
response string if present and non-empty (Python truthiness), else the file
content. -/
def prepare_fixture (a : FixtureArg) : Nat × String :=
  (a.status,
    match a.response with
    | some r => if r = "" then a.fileContent else r
    | none => a.fileContent)

/-- `prepare_sequence_from_args(args)`: the list of (status, response) pairs. -/
def prepare_sequence_from_args (args : List FixtureArg) : List (Nat × String) :=
  args.map prepare_fixture

/-- One step of `create_eternal_fixture_generator`'s loop: yield
`fixtures[i]` and advance the index to `(i + 1) % len(fixtures)`; an
out-of-range index is the generator failing (IndexError on an empty list). -/
def eternal_next (fixtures : List (Nat × String)) (i : Nat) :
    Option ((Nat × String) × Nat) :=
  match fixtures[i]? with
  | some f => some (f, (i + 1) % fixtures.length)
  | none => none

/-- Running `create_eternal_fixture_generator`'s state machine from index `i`:
the value produced by the k-th `next` call. -/
def eternal_run (fixtures : List (Nat × String)) : Nat → Nat → Option (Nat × String)
  | i, 0 => (eternal_next fixtures i).map (fun x => x.1)
  | i, k + 1 =>
    match eternal_next fixtures i with
    | some x => eternal_run fixtures x.2 k
    | none => none

/-- `get_fixture_generator(fixtures, eternal)`, observed at its k-th `next`
call: the eternal generator runs the cyclic state machine from index 0; the
non-eternal generator yields the prepared sequence in order and is exhausted
past its end. -/
def get_fixture_generator_run (args : List FixtureArg) (eternal : Bool) (k : Nat) :
    Option (Nat × String) :=
  if eternal then eternal_run (prepare_sequence_from_args args) 0 k
  else (prepare_sequence_from_args args)[k]?

/-! ## The sweep: verify_ingest -/

/-- Store effects performed by one `verify_ingest` sweep, in order.
`createRecord rid` is `verification_results.post` returning id `rid` (ids are
modelled as successive naturals); `patchItem` is the ingest-store patch of one
field of one item; `dispatch` is the submission (`.delay()`) of the per-item
fan-out/join task graph. -/
inductive SweepEffect where
  | createRecord (rid : Nat)
  | patchItem (itemId : String) (field : String) (rid : Nat)
  | dispatch (itemId : String) (rid : Nat) (deskId : String)
deriving Repr, DecidableEq

/-- Whether `get_original_image` succeeds for an item. -/
def hasOriginal (fs : String → List Nat) (item : IngestItem) : Bool :=
  match get_original_image fs item with
  | .ok _ => true
  | .error _ => false

/-- The body of `verify_ingest`'s `for item in items` loop.  For each item,
in source order: post an empty verification record, patch the item's
`verification.results` field to the new record id, then try
`get_original_image`; on `ImageNotFoundException` the source executes
`return`, which ends the whole loop (no further effects for any item); on
success it builds and submits the task graph and proceeds to the next item. -/
def processItems (fs : String → List Nat) (deskId : String) :
    List IngestItem → Nat → List SweepEffect
  | [], _ => []
  | item :: rest, rid =>
    SweepEffect.createRecord rid ::
    SweepEffect.patchItem item.id "verification.results" rid ::
    (match get_original_image fs item with
     | .error _ => []
     | .ok _ => SweepEffect.dispatch item.id rid deskId ::
         processItems fs deskId rest (rid + 1))

/-- `verify_ingest()`: resolve the destination desk "Verified Images"
(`deskLookup` is the desk id when the lookup succeeds); a failed lookup
raises inside the initial try block, is logged and re-raised before any item
is processed.  The returned Bool records whether the task raised. -/
def verify_ingest (fs : String → List Nat) (deskLookup : Option String)
    (items : List IngestItem) : List SweepEffect × Bool :=
  match deskLookup with
  | none => ([], true)
  | some deskId => (processItems fs deskId items 0, false)

/-- The effects `processItems` produces for a list of items that all have an
original rendition: record, item patch and dispatch for each in turn. -/
def dispatchedAll (deskId : String) : List IngestItem → Nat → List SweepEffect
  | [], _ => []
  | item :: rest, rid =>
    SweepEffect.createRecord rid ::
    SweepEffect.patchItem item.id "verification.results" rid ::
    SweepEffect.dispatch item.id rid deskId ::
    dispatchedAll deskId rest (rid + 1)

/-! ## Provider adapters -/

/-- The exception thrown by pytineye, with an error `code` and a `message`. -/
structure TinEyeAPIError where
  code : Int
  message : String
deriving Repr, DecidableEq

/-- The `results` sub-object of a TinEye response: the `total_results` field
when present, plus an opaque tag standing for the rest of the payload. -/
structure TinEyeResults where
  total_results : Option Int
  tag : Nat
deriving Repr, DecidableEq

/-- A parsed TinEye `json_results` payload: the `results` sub-object when
present, plus an opaque tag for the rest. -/
structure TinEyeJson where
  results : Option TinEyeResults
  tag : Nat
deriving Repr, DecidableEq

/-- The cause wrapped into an `APIGracefulException` by `get_tineye_results`:
either the TinEye API exception or the ill-shaped parsed response. -/
inductive TinEyeGraceful where
  | fromError (e : TinEyeAPIError)
  | fromResult (j : TinEyeJson)
deriving Repr, DecidableEq

/-- The `results` value that `get_tineye_results` stores: the error-shaped
dict built for a code-400 TinEye error, or the whole parsed response. -/
inductive TinEyePayload where
  | errorShaped (message : String)
  | raw (j : TinEyeJson)
deriving Repr, DecidableEq

/-- The normalized output of `get_tineye_results`. -/
structure TinEyeOutput where
  total : Option Int
  results : TinEyePayload
deriving Repr, DecidableEq

/-- Python's `repr` of the TinEye message, modelled abstractly. -/
def pyrepr (s : String) : String :=
  "'" ++ s ++ "'"

/-- `get_tineye_results(content)`: call the TinEye search (modelled by its
outcome `resp`).  A `TinEyeAPIError` with code 400 yields a terminal result
with `total = None` and an error-shaped `results`; any other `TinEyeAPIError`
raises `APIGracefulException`; a parsed response lacking `results` or
`results.total_results` raises `APIGracefulException`; otherwise the total is
`results.total_results` and the whole response is kept as the payload. -/
def get_tineye_results (resp : Except TinEyeAPIError TinEyeJson) :
    Except TinEyeGraceful TinEyeOutput :=
  match resp with
  | .error e =>
    if e.code = 400 then .ok ⟨none, .errorShaped (pyrepr e.message)⟩
    else .error (.fromError e)
  | .ok j =>
    match j.results with
    | none => .error (.fromResult j)
    | some r =>
      match r.total_results with
      | none => .error (.fromResult j)
      | some t => .ok ⟨some t, .raw j⟩

/-- An izitru HTTP response as `get_izitru_results` inspects it: the status
code, the `verdict` field of the parsed JSON when present, and an opaque tag
for the rest of the payload. -/
structure IzitruResponse where
  status_code : Nat
  verdict : Option Int
  tag : Nat
deriving Repr, DecidableEq

/-- The cause wrapped into an `APIGracefulException` by `get_izitru_results`:
the non-200 response object, or the parsed result lacking `verdict`. -/
inductive IzitruGraceful where
  | fromResponse (resp : IzitruResponse)
  | fromResult (resp : IzitruResponse)
deriving Repr, DecidableEq

/-- The normalized output of `get_izitru_results`. -/
structure IzitruOutput where
  total : Int
  results : IzitruResponse
deriving Repr, DecidableEq

/-- `get_izitru_results(filename, content)`, from the response on: a non-200
status raises `APIGracefulException(response)`; a 200 response whose JSON
lacks `verdict` raises `APIGracefulException(result)`; otherwise the verdict
is the total and the parsed response is the payload.  (The security-hash
computation and the deterministic JPEG re-encoding that precede the request
do not affect this classification.) -/
def get_izitru_results (resp : IzitruResponse) :
    Except IzitruGraceful IzitruOutput :=
  if resp.status_code ≠ 200 then .error (.fromResponse resp)
  else
    match resp.verdict with
    | none => .error (.fromResult resp)
    | some v => .ok ⟨v, resp⟩

/-! ## The synchronous provider branch task -/

/-- A successful provider-call result as `append_api_results_to_item`
consumes it: the scalar `total` (None for the TinEye code-400 terminal error)
and an opaque tag standing for the `results` payload. -/
structure ApiCallResult where
  total : Option Int
  tag : Nat
deriving Repr, DecidableEq

/-- A value written into the verification record for one provider: the raw
payload on success, or the synthesized status/message error entry. -/
inductive ResultsPayload where
  | payload (tag : Nat)
  | errorEntry (message : String)
deriving Repr, DecidableEq

/-- Python's `repr` of an `APIGracefulException` carrying `e`. -/
def apiExcRepr (e : String) : String :=
  "APIGracefulException(" ++ e ++ ")"

/-- The observable outcome of one run of `append_api_results_to_item`:
either the task re-raises via `self.retry(countdown=...)`, or it completes
with one field-scoped patch on the ingest item and one on the verification
record. -/
inductive SyncOutcome where
  | retried (countdown : Nat)
  | completed (itemPatch : String × List (String × Option Int))
      (recordPatch : Nat × List (String × ResultsPayload))
deriving Repr, DecidableEq

/-- `append_api_results_to_item(item, api_name, args, verification_id)`: the
provider call either succeeds (`call = .ok r`) or raises a graceful failure
(`call = .error e`, the exception modelled by a string).  Below the retry
ceiling a graceful failure is retried with the configured countdown; at the
ceiling it degrades to `results_number = None` and a status/message error
entry.  Either way the task then patches `verification.<api_name>` on the
item and `<api_name>` on the verification record, and nothing else. -/
def append_api_results_to_item (item_id : String) (api_name : String)
    (verification_id : Nat) (call : Except String ApiCallResult)
    (retries max_retries retry_interval : Nat) : SyncOutcome :=
  match call with
  | .error e =>
    if retries < max_retries then .retried retry_interval
    else
      .completed
        (item_id, [("verification." ++ api_name, none)])
        (verification_id, [(api_name, .errorEntry (apiExcRepr e))])
  | .ok r =>
    .completed
      (item_id, [("verification." ++ api_name, r.total)])
      (verification_id, [(api_name, .payload r.tag)])

/-! ## The async provider callback task (append_incandescent_results_to_item_callback) -/

/-- One page-level match in the incandescent raw results: its `source` site
plus an opaque tag standing for the rest of the page payload. -/
structure IncPage where
  source : String
  tag : Nat
deriving Repr, DecidableEq

/-- The per-URL entry of the incandescent raw results: its `pages` mapping
from page number to page data. -/
structure IncUrlData where
  pages : List (String × IncPage)
deriving Repr, DecidableEq

/-- The raw incandescent callback payload: a mapping from URL to page data. -/
abbrev RawResults : Type :=
  List (String × IncUrlData)

/-- The reshaped verification result: source, then normalized URL, then page
number.  Mappings are modelled as insertion-ordered association lists, as
Python dicts are. -/
abbrev VR : Type :=
  List (String × List (String × List (String × IncPage)))

/-- `url.replace('.', '_')`: with a one-character pattern and replacement
this is a character-wise substitution. -/
def normKey (url : String) : String :=
  String.mk (url.data.map (fun c => if c = '.' then '_' else c))

/-- Dict update `d[k] = f(d.get(k))` on an insertion-ordered association
list: replace in place if the key exists, else append at the end. -/
def updA {α : Type} (k : String) (f : Option α → α) :
    List (String × α) → List (String × α)
  | [] => [(k, f none)]
  | (k', v) :: t =>
    if k' = k then (k', f (some v)) :: t else (k', v) :: updA k f t

/-- Dict lookup `d.get(k)` on an association list. -/
def lookupA {α : Type} (l : List (String × α)) (k : String) : Option α :=
  (l.find? (fun kv => kv.1 == k)).map (fun kv => kv.2)

/-- One iteration of the reshape loop body:
`verification_result[source][key][page_n] = page`, creating the intermediate
dicts when absent. -/
def insertPage (vr : VR) (s k p : String) (page : IncPage) : VR :=
  updA s
    (fun so => updA k
      (fun ko => updA p (fun _ => page) (ko.getD []))
      (so.getD []))
    vr

/-- The inner reshape loop over `data['pages'].items()` for one URL with
normalized key `k`. -/
def pagesFold (k : String) : VR → List (String × IncPage) → VR
  | vr, [] => vr
  | vr, pp :: rest =>
    pagesFold k
      (insertPage vr ("incandescent_" ++ pp.2.source) k pp.1 pp.2) rest

/-- The outer reshape loop over `raw_results.items()`. -/
def outerFold : VR → RawResults → VR
  | vr, [] => vr
  | vr, ud :: rest => outerFold (pagesFold (normKey ud.1) vr ud.2.pages) rest

/-- The reshape performed by the callback on successful raw results, starting
from `verification_result = ` the empty dict. -/
def callback_reshape (raw : RawResults) : VR :=
  outerFold [] raw

/-- The item-level patch built from the reshaped result:
one field `verification.<source>` per source, valued `len(results)`. -/
def itemPatchOf (vr : VR) : List (String × Nat) :=
  vr.map (fun sr => ("verification." ++ sr.1, sr.2.length))

/-- The first argument of the callback: the chained result of the submit
task, either a correlation token (a payload without a "status" key) or a
terminal error dict (which has one). -/
inductive GetData where
  | token (t : Nat)
  | errorResult (message : String)
deriving Repr, DecidableEq

/-- The value patched onto the verification record by the callback. -/
inductive RecordPatchVal where
  | statusDict (message : String)
  | reshaped (vr : VR)
deriving Repr, DecidableEq

/-- The observable outcome of one run of the callback task: re-raise via
`self.retry`, escape with an `UnboundLocalError` (reading a variable the
except branch never assigned), or complete with one item patch and one
record patch. -/
inductive CallbackOutcome where
  | retried
  | raisedUnboundLocal
  | completed (itemPatch : String × List (String × Nat))
      (recordPatch : Nat × RecordPatchVal)
deriving Repr, DecidableEq

/-- `append_incandescent_results_to_item_callback(get_data, item_id,
filename, verification_id)`.  If `get_data` has a "status" key it is used as
the verification result directly (its item-level counts being `len` of each
of its string values).  Otherwise the resolve call runs: a graceful failure
below the retry ceiling re-raises via `self.retry`; at the ceiling, the
except branch synthesizes a status/message entry, but the fall-through code
then rebinds `verification_result` to the empty dict and iterates
`raw_results.items()` — and `raw_results` was never assigned on that path, so
the task raises `UnboundLocalError`.  On a successful call the raw results
are reshaped and both patches are written. -/
def callback_run (get_data : GetData) (item_id : String)
    (verification_id : Nat) (call : Except String RawResults)
    (retries max_retries : Nat) : CallbackOutcome :=
  match get_data with
  | .errorResult msg =>
    .completed
      (item_id, [("verification.status", String.length "error"),
                 ("verification.message", msg.length)])
      (verification_id, .statusDict msg)
  | .token _ =>
    match (match call with
           | .ok raw => some (some raw)
           | .error _ =>
             if retries < max_retries then none else some none) with
    | none => .retried
    | some none => .raisedUnboundLocal
    | some (some raw) =>
      .completed
        (item_id, itemPatchOf (callback_reshape raw))
        (verification_id, .reshaped (callback_reshape raw))

/-- The distinct normalized URLs that contribute at least one page with the
given (prefixed) source — what the spec calls the per-source count basis. -/
def urlsUnder (raw : RawResults) (s : String) : List String :=
  (raw.filter
    (fun ud => ud.2.pages.any
      (fun pp => ("incandescent_" ++ pp.2.source) == s))).map
    (fun ud => normKey ud.1)

/-- The sub-dict of a reshaped result under one source (empty when the
source is absent). -/
def sub2 (vr : VR) (s : String) : List (String × List (String × IncPage)) :=
  (lookupA vr s).getD []

/-- The normalized-URL keys under one source of a reshaped result. -/
def keysUnder (vr : VR) (s : String) : List String :=
  (sub2 vr s).map (fun kv => kv.1)

/-- Three-level lookup into a reshaped result. -/
def lookup3 (vr : VR) (s k p : String) : Option IncPage :=
  match lookupA vr s with
  | none => none
  | some l2 =>
    match lookupA l2 k with
    | none => none
    | some l3 => lookupA l3 p

/-- A concrete blob store for the closed evaluations below. -/
def fsEx : String → List Nat :=
  fun _ => [1]

/-- A concrete item with no renditions mapping, hence no original rendition. -/
def itemNoRenditions : IngestItem :=
  ⟨"bad1", "slugbad", none⟩

/-- A concrete item with an original rendition. -/
def itemGood1 : IngestItem :=
  ⟨"good1", "slugg1", some [("original", ⟨"m3", "h3"⟩)]⟩

/-- A second concrete item with an original rendition. -/
def itemGood2 : IngestItem :=
  ⟨"good2", "slugg2", some [("original", ⟨"m2", "h2"⟩)]⟩

/-- A concrete item whose renditions mapping has an "original" key. -/
def itemWithOriginal : IngestItem :=
  ⟨"item1", "slug1", some [("thumbnail", ⟨"m0", "h0"⟩), ("original", ⟨"m1", "h1"⟩)]⟩

/-- Concrete fixture arguments for the generator witness. -/
def fixtureArgsEx : List FixtureArg :=
  [⟨200, none, "file-one"⟩, ⟨500, some "resp-two", "file-two"⟩]

/-- A concrete raw incandescent payload: two URLs, the first contributing
pages to two sources, the second to one. -/
def rawEx : RawResults :=
  [("a.com", ⟨[("1", ⟨"siteA", 0⟩), ("2", ⟨"siteB", 1⟩)]⟩),
   ("b.com", ⟨[("1", ⟨"siteA", 2⟩)]⟩)]

/-! ## Helper lemmas -/

theorem eternal_run_mod (fixtures : List (Nat × String))
    (hn : 0 < fixtures.length) :
    ∀ k i, i < fixtures.length →
      eternal_run fixtures i k = fixtures[(i + k) % fixtures.length]? := by
  intro k
  induction k with
  | zero =>
    intro i hi
    have hget : fixtures[i]? = some (fixtures.get ⟨i, hi⟩) := by
      simp [List.getElem?_eq_getElem hi]
    simp [eternal_run, eternal_next, hget, Nat.mod_eq_of_lt hi]
  | succ k ih =>
    intro i hi
    have hget : fixtures[i]? = some (fixtures.get ⟨i, hi⟩) := by
      simp [List.getElem?_eq_getElem hi]
    have hlt : (i + 1) % fixtures.length < fixtures.length :=
      Nat.mod_lt _ hn
    have := ih ((i + 1) % fixtures.length) hlt
    simp only [eternal_run, eternal_next, hget]
    rw [this, Nat.mod_add_mod]
    have harg : i + 1 + k = i + (k + 1) := by omega
    rw [harg]

theorem processItems_split (fs : String → List Nat) (deskId : String)
    (bad : IngestItem) (rest : List IngestItem)
    (hb : hasOriginal fs bad = false) :
    ∀ (good : List IngestItem) (r : Nat),
      (∀ it ∈ good, hasOriginal fs it = true) →
      processItems fs deskId (good ++ bad :: rest) r =
        dispatchedAll deskId good r ++
          [SweepEffect.createRecord (r + good.length),
           SweepEffect.patchItem bad.id "verification.results" (r + good.length)] := by
  intro good
  induction good with
  | nil =>
    intro r _
    cases hob : get_original_image fs bad with
    | ok v =>
      rw [hasOriginal, hob] at hb
      exact absurd hb (by simp)
    | error e =>
      simp [processItems, hob, dispatchedAll]
  | cons g gs ih =>
    intro r hg
    have hgood : hasOriginal fs g = true := hg g (by simp)
    cases hog : get_original_image fs g with
    | error e =>
      rw [hasOriginal, hog] at hgood
      exact absurd hgood (by simp)
    | ok v =>
      have hrest := ih (r + 1) (fun it hit => hg it (by simp [hit]))
      have harg : r + 1 + gs.length = r + (gs.length + 1) := by omega
      rw [harg] at hrest
      simp only [List.cons_append, processItems, hog, dispatchedAll,
        List.length_cons, List.append_eq, hrest]

theorem dispatch_mem_dispatchedAll (deskId : String) (i : String) (r' : Nat)
    (d' : String) :
    ∀ (l : List IngestItem) (r : Nat),
      SweepEffect.dispatch i r' d' ∈ dispatchedAll deskId l r →
      i ∈ l.map (fun it => it.id) := by
  intro l
  induction l with
  | nil => intro r h; simp [dispatchedAll] at h
  | cons it rest ih =>
    intro r h
    simp only [dispatchedAll, List.mem_cons] at h
    rcases h with h | h | h | h
    · exact absurd h (by simp)
    · exact absurd h (by simp)
    · simp [SweepEffect.dispatch.injEq] at h
      simp [h.1]
    · have hmem := ih (r + 1) h
      simp only [List.mem_map] at hmem
      obtain ⟨a, ha, hai⟩ := hmem
      simp only [List.map_cons, List.mem_cons, List.mem_map]
      exact Or.inr ⟨a, ha, hai⟩

/-! ## Claim theorems: C8, C9, C10 -/

/-- Claim C9: `get_original_image` returns the pair (href, bytes) of the
rendition keyed "original" when the item's renditions mapping contains that
key, and raises `ImageNotFoundException` exactly when the item has no
renditions mapping or its renditions mapping has no "original" key. -/
theorem get_original_image_spec (fs : String → List Nat) (item : IngestItem) :
    (∀ rs kv, item.renditions = some rs →
      rs.find? (fun kv => kv.1 == "original") = some kv →
      get_original_image fs item = .ok (kv.2.href, fs kv.2.media)) ∧
    (get_original_image fs item = .error .imageNotFound ↔
      (item.renditions = none ∨
        ∃ rs, item.renditions = some rs ∧
          rs.find? (fun kv => kv.1 == "original") = none)) := by
  constructor
  · intro rs kv hrs hfind
    simp [get_original_image, hrs, hfind]
  · cases h : item.renditions with
    | none => simp [get_original_image, h]
    | some rs =>
      cases hf : rs.find? (fun kv => kv.1 == "original") with
      | none =>
        have hval : get_original_image fs item = .error .imageNotFound := by
          simp [get_original_image, h, hf]
        rw [hval]
        exact ⟨fun _ => Or.inr ⟨rs, rfl, hf⟩, fun _ => rfl⟩
      | some kv =>
        have hval : get_original_image fs item = .ok (kv.2.href, fs kv.2.media) := by
          simp [get_original_image, h, hf]
        rw [hval]
        constructor
        · intro hcon
          exact Except.noConfusion hcon
        · rintro (hcon | ⟨rs', hrs', hfind'⟩)
          · exact Option.noConfusion hcon
          · have hrs : rs = rs' := Option.some.inj hrs'
            rw [← hrs, hf] at hfind'
            exact Option.noConfusion hfind'

theorem get_original_image_spec_witness :
    get_original_image (fun _ => [9, 9]) itemWithOriginal = .ok ("h1", [9, 9]) :=
  (get_original_image_spec (fun _ => [9, 9]) itemWithOriginal).1
    _ ("original", ⟨"m1", "h1"⟩) rfl (by decide)

/-- Claim C8: `finalize_verification(item_id, desk_id)` performs exactly two
effects, both through the store-writer wrapper, in this order: first fetch the
item into the destination desk, then delete the item from the ingest store. -/
theorem finalize_verification_spec (item_id desk_id : String) :
    (finalize_verification item_id desk_id).length = 2 ∧
    (finalize_verification item_id desk_id)[0]? =
      some (handle_elastic_write_problems_wrapper (.fetchToDesk item_id desk_id)) ∧
    (finalize_verification item_id desk_id)[1]? =
      some (handle_elastic_write_problems_wrapper (.deleteFromIngest item_id)) := by
  refine ⟨rfl, rfl, rfl⟩

/-- Claim C10: with a non-empty prepared fixture list of length n, the
eternal generator yields, at the k-th request, exactly the prepared fixture at
index k mod n; the non-eternal generator yields the n prepared fixtures once
in order and is then exhausted. -/
theorem get_fixture_generator_spec (args : List FixtureArg) (k : Nat)
    (hn : 0 < (prepare_sequence_from_args args).length) :
    get_fixture_generator_run args true k =
      some ((prepare_sequence_from_args args).get
        ⟨k % (prepare_sequence_from_args args).length, Nat.mod_lt k hn⟩) ∧
    (∀ (hk : k < (prepare_sequence_from_args args).length),
      get_fixture_generator_run args false k =
        some ((prepare_sequence_from_args args).get ⟨k, hk⟩)) ∧
    ((prepare_sequence_from_args args).length ≤ k →
      get_fixture_generator_run args false k = none) := by
  refine ⟨?_, ?_, ?_⟩
  · have h := eternal_run_mod (prepare_sequence_from_args args) hn k 0 hn
    simp only [get_fixture_generator_run, if_pos rfl]
    rw [h]
    simp [List.getElem?_eq_getElem (Nat.mod_lt k hn)]
  · intro hk
    simp [get_fixture_generator_run, List.getElem?_eq_getElem hk]
  · intro hk
    simp [get_fixture_generator_run, List.getElem?_eq_none_iff]
    omega

theorem get_fixture_generator_spec_witness :
    get_fixture_generator_run fixtureArgsEx true 5 = some (500, "resp-two") ∧
    get_fixture_generator_run fixtureArgsEx false 5 = none := by
  have h := get_fixture_generator_spec fixtureArgsEx 5 (by decide)
  exact ⟨h.1.trans (by decide), h.2.2 (by decide)⟩

/-- Claim C1: the claim says a matched item without an "original" rendition
aborts processing for that item only, with every subsequent matched item still
dispatched.  The code instead executes `return` inside the item loop: on the
concrete sweep below, the first item lacks an original rendition and the task
returns (without raising) after that item's record creation and patch, so the
second item — which has an original rendition — gets no record, no patch and
no dispatched task graph. -/
theorem verify_ingest_return_on_missing_original :
    verify_ingest fsEx (some "desk1") [itemNoRenditions, itemGood2] =
      ([SweepEffect.createRecord 0,
        SweepEffect.patchItem "bad1" "verification.results" 0], false) := by
  decide

/-- Counterexample to claim C2 as stated: for a sweep whose matched item
lacks an "original" rendition, the sweep does create a VerificationRecord for
it and does patch its verification field (to `verification.results = 0`),
contradicting "leaves that item's verification field absent ... and creates
no VerificationRecord for it". -/
theorem sweep_missing_original_counterexample :
    SweepEffect.createRecord 0 ∈
      (verify_ingest fsEx (some "desk1") [itemNoRenditions]).1 ∧
    SweepEffect.patchItem "bad1" "verification.results" 0 ∈
      (verify_ingest fsEx (some "desk1") [itemNoRenditions]).1 := by
  decide

/-- Claim C2 (amended): for every item matched by a sweep that lacks an
"original" rendition (and is reached by the loop: all earlier matched items
have originals), the sweep creates a VerificationRecord for it and patches its
verification.results field — so the item does not match the next sweep's
filter — and dispatches no task graph for it; the sweep performs no further
effects after that item. -/
theorem sweep_missing_original_amended (fs : String → List Nat)
    (deskId : String) (good : List IngestItem) (bad : IngestItem)
    (rest : List IngestItem)
    (hg : ∀ it ∈ good, hasOriginal fs it = true)
    (hb : hasOriginal fs bad = false)
    (hid : bad.id ∉ good.map (fun it => it.id)) :
    (verify_ingest fs (some deskId) (good ++ bad :: rest)).1 =
      dispatchedAll deskId good 0 ++
        [SweepEffect.createRecord good.length,
         SweepEffect.patchItem bad.id "verification.results" good.length] ∧
    ∀ r' d', SweepEffect.dispatch bad.id r' d' ∉
      (verify_ingest fs (some deskId) (good ++ bad :: rest)).1 := by
  have hsplit := processItems_split fs deskId bad rest hb good 0 hg
  constructor
  · show processItems fs deskId (good ++ bad :: rest) 0 = _
    rw [hsplit]
    simp
  · intro r' d' hmem
    have hmem' : SweepEffect.dispatch bad.id r' d' ∈
        processItems fs deskId (good ++ bad :: rest) 0 := hmem
    rw [hsplit] at hmem'
    rcases List.mem_append.mp hmem' with h1 | h2
    · exact hid (dispatch_mem_dispatchedAll deskId bad.id r' d' good 0 h1)
    · simp at h2

theorem sweep_missing_original_amended_witness :
    (verify_ingest fsEx (some "desk1") [itemGood1, itemNoRenditions]).1 =
      dispatchedAll "desk1" [itemGood1] 0 ++
        [SweepEffect.createRecord 1,
         SweepEffect.patchItem "bad1" "verification.results" 1] ∧
    ∀ r' d', SweepEffect.dispatch "bad1" r' d' ∉
      (verify_ingest fsEx (some "desk1") [itemGood1, itemNoRenditions]).1 :=
  sweep_missing_original_amended fsEx "desk1" [itemGood1] itemNoRenditions []
    (by decide) (by decide) (by decide)

/-- Claim C5: when the destination desk lookup fails, `verify_ingest` raises,
and at that moment no effect has been performed: no VerificationRecord
created, no item patched, no task graph dispatched. -/
theorem verify_ingest_desk_failure (fs : String → List Nat)
    (items : List IngestItem) :
    verify_ingest fs none items = ([], true) := rfl

/-- Claim C4: a synchronous provider branch whose adapter call raises a
graceful failure with the attempt count at max_retries does not raise: it
patches the item field verification.<providerName> to null and the
verification record's <providerName> field to a status/message error entry
derived from the exception, touching no other field of either. -/
theorem append_api_results_retry_exhaustion (item_id api_name : String)
    (verification_id : Nat) (e : String)
    (retries max_retries interval : Nat) (h : max_retries ≤ retries) :
    append_api_results_to_item item_id api_name verification_id (.error e)
        retries max_retries interval =
      .completed
        (item_id, [("verification." ++ api_name, none)])
        (verification_id, [(api_name, .errorEntry (apiExcRepr e))]) := by
  simp [append_api_results_to_item, Nat.not_lt.mpr h]

theorem append_api_results_retry_exhaustion_witness :
    append_api_results_to_item "item1" "izitru" 7 (.error "boom") 3 3 10 =
      .completed ("item1", [("verification.izitru", none)])
        (7, [("izitru", .errorEntry (apiExcRepr "boom"))]) :=
  append_api_results_retry_exhaustion "item1" "izitru" 7 "boom" 3 3 10
    (Nat.le_refl 3)

/-- Claim C7: `get_izitru_results` raises `APIGracefulException` iff the HTTP
status is not 200 or the response lacks `verdict`, otherwise returning the
verdict as its total; `get_tineye_results` returns a terminal error result
with total null for a TinEye API error with code 400, raises
`APIGracefulException` for other TinEye API errors and for responses lacking
`results` or `total_results`, and otherwise returns `total_results` as its
total. -/
theorem provider_failure_classification (iresp : IzitruResponse)
    (tresp : Except TinEyeAPIError TinEyeJson) :
    ((∃ g, get_izitru_results iresp = .error g) ↔
      (iresp.status_code ≠ 200 ∨ iresp.verdict = none)) ∧
    (∀ v, iresp.status_code = 200 → iresp.verdict = some v →
      get_izitru_results iresp = .ok ⟨v, iresp⟩) ∧
    (∀ e, tresp = .error e → e.code = 400 →
      get_tineye_results tresp = .ok ⟨none, .errorShaped (pyrepr e.message)⟩) ∧
    (∀ e, tresp = .error e → e.code ≠ 400 →
      get_tineye_results tresp = .error (.fromError e)) ∧
    (∀ j, tresp = .ok j →
      (j.results = none ∨ ∃ r, j.results = some r ∧ r.total_results = none) →
      get_tineye_results tresp = .error (.fromResult j)) ∧
    (∀ j r t, tresp = .ok j → j.results = some r → r.total_results = some t →
      get_tineye_results tresp = .ok ⟨some t, .raw j⟩) := by
  refine ⟨?_, ?_, ?_, ?_, ?_, ?_⟩
  · by_cases h200 : iresp.status_code = 200
    · cases hv : iresp.verdict with
      | none => simp [get_izitru_results, h200, hv]
      | some v => simp [get_izitru_results, h200, hv]
    · simp [get_izitru_results, h200]
  · intro v h200 hv
    simp [get_izitru_results, h200, hv]
  · intro e he h400
    subst he
    simp [get_tineye_results, h400]
  · intro e he h400
    subst he
    simp [get_tineye_results, h400]
  · intro j hj hbad
    subst hj
    rcases hbad with hn | ⟨r, hr, ht⟩
    · simp [get_tineye_results, hn]
    · simp [get_tineye_results, hr, ht]
  · intro j r t hj hr ht
    subst hj
    simp [get_tineye_results, hr, ht]

theorem provider_failure_classification_witness :
    get_izitru_results ⟨200, some 3, 0⟩ = .ok ⟨3, ⟨200, some 3, 0⟩⟩ ∧
    get_tineye_results (.error ⟨400, "limit"⟩) =
      .ok ⟨none, .errorShaped (pyrepr "limit")⟩ := by
  constructor
  · exact (provider_failure_classification ⟨200, some 3, 0⟩
      (.error ⟨400, "limit"⟩)).2.1 3 rfl rfl
  · exact (provider_failure_classification ⟨200, some 3, 0⟩
      (.error ⟨400, "limit"⟩)).2.2.1 ⟨400, "limit"⟩ rfl rfl

/-! ## Association-list lemmas for the reshape -/

theorem lookupA_cons {α : Type} (a : String) (b : α) (t : List (String × α))
    (k : String) :
    lookupA ((a, b) :: t) k = if a = k then some b else lookupA t k := by
  by_cases h : a = k
  · subst h
    simp [lookupA, List.find?]
  · have hb : (a == k) = false := by simp [h]
    simp [lookupA, List.find?, hb, h]

theorem lookupA_nil {α : Type} (k : String) :
    lookupA ([] : List (String × α)) k = none := by
  simp [lookupA]

theorem lookupA_updA_self {α : Type} (k : String) (f : Option α → α) :
    ∀ l : List (String × α), lookupA (updA k f l) k = some (f (lookupA l k)) := by
  intro l
  induction l with
  | nil => simp [updA, lookupA_cons, lookupA_nil]
  | cons kv t ih =>
    obtain ⟨a, b⟩ := kv
    by_cases h : a = k
    · subst h
      simp [updA, lookupA_cons]
    · simp [updA, h, lookupA_cons, ih]

theorem lookupA_updA_other {α : Type} (k k' : String) (f : Option α → α)
    (h : k' ≠ k) :
    ∀ l : List (String × α), lookupA (updA k f l) k' = lookupA l k' := by
  intro l
  induction l with
  | nil => simp [updA, lookupA_cons, lookupA_nil, Ne.symm h]
  | cons kv t ih =>
    obtain ⟨a, b⟩ := kv
    by_cases hak : a = k
    · subst hak
      simp [updA, lookupA_cons, Ne.symm h]
    · simp [updA, hak, lookupA_cons, ih]

theorem keys_updA {α : Type} (k : String) (f : Option α → α) :
    ∀ l : List (String × α),
      (updA k f l).map (fun kv => kv.1) =
        if k ∈ l.map (fun kv => kv.1) then l.map (fun kv => kv.1)
        else l.map (fun kv => kv.1) ++ [k] := by
  intro l
  induction l with
  | nil => simp [updA]
  | cons kv t ih =>
    obtain ⟨a, b⟩ := kv
    by_cases hak : a = k
    · subst hak
      simp [updA]
    · by_cases hm : k ∈ t.map (fun kv => kv.1)
      · simp [updA, hak, ih, hm, Ne.symm hak]
      · simp [updA, hak, ih, hm, Ne.symm hak]

theorem lookupA_mem {α : Type} :
    ∀ (l : List (String × α)) (s : String) (v : α),
      lookupA l s = some v → (s, v) ∈ l := by
  intro l
  induction l with
  | nil => intro s v h; simp [lookupA_nil] at h
  | cons kv t ih =>
    intro s v h
    obtain ⟨a, b⟩ := kv
    rw [lookupA_cons] at h
    by_cases hak : a = s
    · rw [if_pos hak] at h
      subst hak
      have hb := Option.some.inj h
      subst hb
      exact List.mem_cons_self _ _
    · rw [if_neg hak] at h
      exact List.mem_cons_of_mem _ (ih s v h)

/-! ## insertPage lemmas -/

theorem sub2_insertPage_self (vr : VR) (s k p : String) (pg : IncPage) :
    sub2 (insertPage vr s k p pg) s =
      updA k (fun ko => updA p (fun _ => pg) (ko.getD [])) (sub2 vr s) := by
  simp [sub2, insertPage, lookupA_updA_self]

theorem sub2_insertPage_other (vr : VR) (s k p s' : String) (pg : IncPage)
    (h : s' ≠ s) :
    sub2 (insertPage vr s k p pg) s' = sub2 vr s' := by
  simp [sub2, insertPage, lookupA_updA_other _ _ _ h]

theorem keysUnder_insertPage_self (vr : VR) (s k p : String) (pg : IncPage) :
    keysUnder (insertPage vr s k p pg) s =
      if k ∈ keysUnder vr s then keysUnder vr s else keysUnder vr s ++ [k] := by
  simp [keysUnder, sub2_insertPage_self, keys_updA]

theorem keysUnder_insertPage_other (vr : VR) (s k p s' : String) (pg : IncPage)
    (h : s' ≠ s) :
    keysUnder (insertPage vr s k p pg) s' = keysUnder vr s' := by
  simp [keysUnder, sub2_insertPage_other vr s k p s' pg h]

theorem lookup3_eq_sub2 (vr : VR) (s k p : String) :
    lookup3 vr s k p =
      match lookupA (sub2 vr s) k with
      | none => none
      | some l3 => lookupA l3 p := by
  cases h : lookupA vr s with
  | none => simp [lookup3, sub2, h, lookupA_nil]
  | some l2 => simp [lookup3, sub2, h]

theorem lookup3_insertPage_self (vr : VR) (s k p : String) (pg : IncPage) :
    lookup3 (insertPage vr s k p pg) s k p = some pg := by
  rw [lookup3_eq_sub2, sub2_insertPage_self, lookupA_updA_self]
  simp [lookupA_updA_self]

theorem lookup3_insertPage_other (vr : VR) (s k p s' k' p' : String)
    (pg : IncPage) (h : ¬(s' = s ∧ k' = k ∧ p' = p)) :
    lookup3 (insertPage vr s k p pg) s' k' p' = lookup3 vr s' k' p' := by
  by_cases hs : s' = s
  · subst hs
    by_cases hk : k' = k
    · subst hk
      have hp : p' ≠ p := fun hp => h ⟨rfl, rfl, hp⟩
      rw [lookup3_eq_sub2, lookup3_eq_sub2, sub2_insertPage_self,
        lookupA_updA_self]
      cases h3 : lookupA (sub2 vr s') k' with
      | none => simp [h3, lookupA_updA_other _ _ _ hp, lookupA_nil]
      | some l3 => simp [h3, lookupA_updA_other _ _ _ hp]
    · rw [lookup3_eq_sub2, lookup3_eq_sub2, sub2_insertPage_self,
        lookupA_updA_other _ _ _ hk]
  · rw [lookup3_eq_sub2, lookup3_eq_sub2,
      sub2_insertPage_other vr s k p s' pg hs]

/-! ## pagesFold lemmas -/

theorem keysUnder_pagesFold (k s : String) :
    ∀ (ps : List (String × IncPage)) (vr : VR),
      keysUnder (pagesFold k vr ps) s =
        if (ps.any (fun pp => ("incandescent_" ++ pp.2.source) == s)) ∧
            k ∉ keysUnder vr s
        then keysUnder vr s ++ [k] else keysUnder vr s := by
  intro ps
  induction ps with
  | nil => intro vr; simp [pagesFold]
  | cons pp rest ih =>
    intro vr
    simp only [pagesFold]
    rw [ih]
    by_cases hs0 : ("incandescent_" ++ pp.2.source) = s
    · have hK : keysUnder (insertPage vr ("incandescent_" ++ pp.2.source) k pp.1 pp.2) s =
          if k ∈ keysUnder vr s then keysUnder vr s else keysUnder vr s ++ [k] := by
        rw [← hs0]
        exact keysUnder_insertPage_self vr _ k pp.1 pp.2
      by_cases hk : k ∈ keysUnder vr s
      · rw [hK, if_pos hk]
        simp [hk]
      · rw [hK, if_neg hk]
        simp [hk, hs0]
    · have hK : keysUnder (insertPage vr ("incandescent_" ++ pp.2.source) k pp.1 pp.2) s =
          keysUnder vr s :=
        keysUnder_insertPage_other vr _ k pp.1 s pp.2 (fun he => hs0 he.symm)
      have hb : (("incandescent_" ++ pp.2.source) == s) = false := by
        simp [hs0]
      simp only [List.any_cons]
      rw [hK]
      simp only [hb, Bool.false_or]

theorem lookup3_pagesFold_ne (k s' k' p' : String) (hk : k' ≠ k) :
    ∀ (ps : List (String × IncPage)) (vr : VR),
      lookup3 (pagesFold k vr ps) s' k' p' = lookup3 vr s' k' p' := by
  intro ps
  induction ps with
  | nil => intro vr; simp [pagesFold]
  | cons pp rest ih =>
    intro vr
    simp only [pagesFold]
    rw [ih, lookup3_insertPage_other]
    exact fun hc => hk hc.2.1

theorem lookup3_pagesFold_ne_p (k s' p' : String) :
    ∀ (ps : List (String × IncPage)) (vr : VR),
      (∀ q ∈ ps, q.1 ≠ p') →
      lookup3 (pagesFold k vr ps) s' k p' = lookup3 vr s' k p' := by
  intro ps
  induction ps with
  | nil => intro vr _; simp [pagesFold]
  | cons qq rest ih =>
    intro vr hq
    simp only [pagesFold]
    rw [ih _ (fun q hmem => hq q (List.mem_cons_of_mem _ hmem)),
      lookup3_insertPage_other]
    exact fun hc => hq qq (List.mem_cons_self _ _) hc.2.2.symm

theorem lookup3_pagesFold_stores (k : String) :
    ∀ (ps : List (String × IncPage)) (vr : VR),
      (ps.map (fun pp => pp.1)).Nodup →
      ∀ pp ∈ ps,
        lookup3 (pagesFold k vr ps) ("incandescent_" ++ pp.2.source) k pp.1 =
          some pp.2 := by
  intro ps
  induction ps with
  | nil => intro vr _ pp h; simp at h
  | cons qq rest ih =>
    intro vr hnd pp hpp
    simp only [List.map_cons, List.nodup_cons] at hnd
    rcases List.mem_cons.mp hpp with rfl | hmem
    · simp only [pagesFold]
      have hne : ∀ q ∈ rest, q.1 ≠ pp.1 := by
        intro q hqm he
        exact hnd.1 (he ▸ List.mem_map_of_mem _ hqm)
      rw [lookup3_pagesFold_ne_p k _ _ rest _ hne, lookup3_insertPage_self]
    · simp only [pagesFold]
      exact ih _ hnd.2 pp hmem

/-! ## outerFold lemmas -/

theorem lookup3_outerFold_ne (s' k' p' : String) :
    ∀ (raw : RawResults) (vr : VR),
      (∀ ud ∈ raw, normKey ud.1 ≠ k') →
      lookup3 (outerFold vr raw) s' k' p' = lookup3 vr s' k' p' := by
  intro raw
  induction raw with
  | nil => intro vr _; simp [outerFold]
  | cons ud rest ih =>
    intro vr h
    simp only [outerFold]
    rw [ih _ (fun u hu => h u (List.mem_cons_of_mem _ hu)),
      lookup3_pagesFold_ne (normKey ud.1) s' k' p'
        (fun he => h ud (List.mem_cons_self _ _) he.symm)]

theorem outerFold_stores :
    ∀ (raw : RawResults) (vr : VR),
      (raw.map (fun ud => normKey ud.1)).Nodup →
      (∀ ud ∈ raw, (ud.2.pages.map (fun pp => pp.1)).Nodup) →
      ∀ ud ∈ raw, ∀ pp ∈ ud.2.pages,
        lookup3 (outerFold vr raw) ("incandescent_" ++ pp.2.source)
          (normKey ud.1) pp.1 = some pp.2 := by
  intro raw
  induction raw with
  | nil => intro vr _ _ ud h; simp at h
  | cons ud0 rest ih =>
    intro vr hnd hpg ud hud pp hpp
    simp only [List.map_cons, List.nodup_cons] at hnd
    rcases List.mem_cons.mp hud with rfl | hmem
    · simp only [outerFold]
      have hne : ∀ ud' ∈ rest, normKey ud'.1 ≠ normKey ud.1 := by
        intro ud' hud' he
        exact hnd.1 (he ▸ List.mem_map_of_mem _ hud')
      rw [lookup3_outerFold_ne _ _ _ rest _ hne]
      exact lookup3_pagesFold_stores (normKey ud.1) ud.2.pages vr
        (hpg ud (List.mem_cons_self _ _)) pp hpp
    · simp only [outerFold]
      exact ih _ hnd.2 (fun u hu => hpg u (List.mem_cons_of_mem _ hu)) ud hmem pp hpp

theorem keysUnder_outerFold (s : String) :
    ∀ (raw : RawResults) (vr : VR),
      (raw.map (fun ud => normKey ud.1)).Nodup →
      (∀ ud ∈ raw, ∀ s', normKey ud.1 ∉ keysUnder vr s') →
      keysUnder (outerFold vr raw) s = keysUnder vr s ++ urlsUnder raw s := by
  intro raw
  induction raw with
  | nil => intro vr _ _; simp [outerFold, urlsUnder]
  | cons ud rest ih =>
    intro vr hnd hfresh
    simp only [List.map_cons, List.nodup_cons] at hnd
    simp only [outerFold]
    have hK : ∀ s', keysUnder (pagesFold (normKey ud.1) vr ud.2.pages) s' =
        keysUnder vr s' ++
          (if ud.2.pages.any (fun pp => ("incandescent_" ++ pp.2.source) == s')
           then [normKey ud.1] else []) := by
      intro s'
      rw [keysUnder_pagesFold]
      have hf : normKey ud.1 ∉ keysUnder vr s' :=
        hfresh ud (List.mem_cons_self _ _) s'
      by_cases hany :
          ud.2.pages.any (fun pp => ("incandescent_" ++ pp.2.source) == s') = true
      · simp [hany, hf]
      · simp [hany]
    have hfresh' : ∀ ud' ∈ rest, ∀ s',
        normKey ud'.1 ∉ keysUnder (pagesFold (normKey ud.1) vr ud.2.pages) s' := by
      intro ud' hud' s'
      rw [hK s']
      simp only [List.mem_append]
      rintro (h1 | h2)
      · exact hfresh ud' (List.mem_cons_of_mem _ hud') s' h1
      · have hne : normKey ud'.1 ≠ normKey ud.1 := by
          intro he
          exact hnd.1 (he ▸ List.mem_map_of_mem _ hud')
        by_cases hany :
            ud.2.pages.any (fun pp => ("incandescent_" ++ pp.2.source) == s') = true
        · rw [if_pos hany] at h2
          simp at h2
          exact hne h2
        · rw [if_neg hany] at h2
          simp at h2
    rw [ih _ hnd.2 hfresh', hK s, List.append_assoc]
    congr 1
    by_cases hany :
        ud.2.pages.any (fun pp => ("incandescent_" ++ pp.2.source) == s) = true
    · simp [urlsUnder, List.filter_cons, hany]
    · simp [urlsUnder, List.filter_cons, hany]

/-- Claim C3: the claim says that when the async resolve call raises a
graceful failure with the attempt count at the retry ceiling, the task writes
a status "error" entry to the verification record, patches the item, and does
not itself raise.  In the code, the except branch does synthesize that error
entry, but the fall-through reshape code then rebinds the variable to an
empty dict and iterates `raw_results`, which was never assigned on this path:
the task raises `UnboundLocalError` and performs neither patch. -/
theorem callback_retry_exhaustion_raises :
    callback_run (.token 0) "item1" 7 (.error "APIGracefulException") 20 20 =
      .raisedUnboundLocal := by
  rfl

/-- Claim C6: on a successful async resolve, the record-level patch stores
the full structure grouped by "incandescent_" plus the page source, then by
the URL with '.' replaced by '_', then by page number; and the item-level
patch sets, for each such source, verification.<source> to the number of
distinct normalized URLs under that source.  (The hypotheses say the raw
payload is a well-formed mapping: URL keys distinct after normalization, and
page-number keys distinct per URL.) -/
theorem callback_success_reshape (raw : RawResults)
    (hurl : (raw.map (fun ud => normKey ud.1)).Nodup)
    (hpg : ∀ ud ∈ raw, (ud.2.pages.map (fun pp => pp.1)).Nodup)
    (item_id : String) (verification_id t retries max_retries : Nat) :
    callback_run (.token t) item_id verification_id (.ok raw)
        retries max_retries =
      .completed (item_id, itemPatchOf (callback_reshape raw))
        (verification_id, .reshaped (callback_reshape raw)) ∧
    (∀ ud ∈ raw, ∀ pp ∈ ud.2.pages,
      lookup3 (callback_reshape raw) ("incandescent_" ++ pp.2.source)
        (normKey ud.1) pp.1 = some pp.2) ∧
    (∀ s rs, lookupA (callback_reshape raw) s = some rs →
      rs.length = (urlsUnder raw s).length ∧
      ("verification." ++ s, (urlsUnder raw s).length) ∈
        itemPatchOf (callback_reshape raw)) := by
  refine ⟨rfl, ?_, ?_⟩
  · exact outerFold_stores raw [] hurl hpg
  · intro s rs h
    have hkeys := keysUnder_outerFold s raw [] hurl
      (by intro ud hud s'; simp [keysUnder, sub2, lookupA_nil])
    have h1 : keysUnder (callback_reshape raw) s = urlsUnder raw s := by
      have hnil : keysUnder ([] : VR) s = [] := by
        simp [keysUnder, sub2, lookupA_nil]
      rw [callback_reshape, hkeys, hnil, List.nil_append]
    have h2 : keysUnder (callback_reshape raw) s = rs.map (fun kv => kv.1) := by
      simp [keysUnder, sub2, h]
    have hlen : rs.length = (urlsUnder raw s).length := by
      have := congrArg List.length (h2.symm.trans h1)
      simpa using this
    refine ⟨hlen, ?_⟩
    have hmem := List.mem_map_of_mem
      (fun sr => ("verification." ++ sr.1, sr.2.length))
      (lookupA_mem _ s rs h)
    rw [← hlen]
    exact hmem

theorem callback_success_reshape_witness :
    callback_run (.token 0) "item1" 7 (.ok rawEx) 0 20 =
      .completed ("item1", itemPatchOf (callback_reshape rawEx))
        (7, .reshaped (callback_reshape rawEx)) ∧
    lookup3 (callback_reshape rawEx) ("incandescent_" ++ "siteA")
      (normKey "a.com") "1" = some ⟨"siteA", 0⟩ := by
  have h := callback_success_reshape rawEx (by decide) (by decide) "item1" 7 0 0 20
  refine ⟨h.1, ?_⟩
  exact h.2.1 ("a.com", ⟨[("1", ⟨"siteA", 0⟩), ("2", ⟨"siteB", 1⟩)]⟩)
    (by simp [rawEx]) ("1", ⟨"siteA", 0⟩) (by simp)

end VerifiedPixel
